import Mathlib

set_option autoImplicit false

/-!
Shallow embedding of the transaction and value-model core of the
rust_database_system repository, together with theorems settling the
frozen claims about it.

Sources embedded here:
  src/src/core/error.rs        (DatabaseError taxonomy)
  src/src/core/value.rs        (DatabaseValue, DatabaseRow, conversions)
  src/src/core/transaction.rs  (TransactionGuard)
  src/src/backends/sqlite.rs   (SqliteDatabase)
  src/src/backends/pooled_sqlite.rs (PooledSqliteDatabase, PooledTransaction)

Modelling conventions: the code is async Rust over tokio; every verb is
embedded as a pure state-transition function. Outcomes of calls into the
underlying SQLite engine (rusqlite) are passed in explicitly as an
Except value, since the engine is external to this repository. The
timeout race wrapped around each engine call and the tokio worker pool
are concurrency and real-time features outside the sequential embedding;
the embedded functions model the worker closure itself, which is where
all the state and error-taxonomy logic of the claims lives.
-/

namespace RustDB

/-- Error raised by the external rusqlite engine; only its identity
matters to this development. From the SqliteError variant sources. -/
inductive SqliteErr where
  | err (msg : String)
deriving DecidableEq

/-- Error taxonomy, from src/src/core/error.rs enum DatabaseError
(variants not reachable from the embedded code are omitted). -/
inductive DatabaseError where
  | ConnectionError (msg : String)
  | ConnectionTimeout (timeout_ms : Nat)
  | PoolExhausted (active maxSize : Nat)
  | QueryError (msg : String)
  | QueryTimeout (timeout_ms : Nat)
  | TypeMismatch (expected actual : String)
  | TransactionError (msg : String)
  | SqliteError (e : SqliteErr)
  | Other (msg : String)
deriving DecidableEq

/-- Result alias, from src/src/core/error.rs type Result of T. -/
abbrev DbResult (α : Type) := Except DatabaseError α

/-- True exactly on the TransactionError variant. -/
def DatabaseError.isTransactionError : DatabaseError → Bool
  | .TransactionError _ => true
  | _ => false

/-- True exactly on the ConnectionError variant. -/
def DatabaseError.isConnectionError : DatabaseError → Bool
  | .ConnectionError _ => true
  | _ => false

/-- A result that failed with a TransactionError. -/
def failsWithTransactionError {α : Type} : DbResult α → Prop
  | .error e => e.isTransactionError = true
  | .ok _ => False

/-- A result that failed with a ConnectionError. -/
def failsWithConnectionError {α : Type} : DbResult α → Prop
  | .error e => e.isConnectionError = true
  | .ok _ => False

instance {α : Type} (r : DbResult α) : Decidable (failsWithTransactionError r) := by
  unfold failsWithTransactionError
  cases r <;> infer_instance

instance {α : Type} (r : DbResult α) : Decidable (failsWithConnectionError r) := by
  unfold failsWithConnectionError
  cases r <;> infer_instance

/-! ## Floating point payload model

The Rust code stores f32 and f64 payloads and converts them with the
saturating as-cast. The numeric value of a finite float is carried here
exactly as a rational; IEEE precision and rounding are abstracted away,
and no claim below depends on them. NaN and the infinities are explicit
because the saturating casts treat them specially. -/

/-- Model of an f32 or f64 payload. -/
inductive FloatVal where
  | nan
  | inf
  | negInf
  | finite (q : Rat)
deriving DecidableEq

/-- Rust saturating float-to-integer cast (the as operator on a float):
NaN goes to 0, out-of-range values clamp to the nearest bound of the
target type, finite values truncate toward zero. -/
def FloatVal.rustAsIntCast (lo hi : Int) : FloatVal → Int
  | .nan => 0
  | .inf => hi
  | .negInf => lo
  | .finite q => min hi (max lo (q.num.tdiv (q.den : Int)))

/-- Lower bound of i32. -/
def i32_min : Int := -(2 ^ 31)

/-- Upper bound of i32. -/
def i32_max : Int := 2 ^ 31 - 1

/-- Lower bound of i64. -/
def i64_min : Int := -(2 ^ 63)

/-- Upper bound of i64. -/
def i64_max : Int := 2 ^ 63 - 1

/-- Rust i32 try_from on an i64 value: succeeds exactly when the value
fits the 32-bit signed range, and never truncates. -/
def i32_try_from (v : Int) : Option Int :=
  if i32_min ≤ v ∧ v ≤ i32_max then some v else none

/-! ## String parsing models

Rust str parse for the integer types accepts an optional sign followed
by one or more decimal digits and rejects out-of-range values. -/

/-- Value of a nonempty all-digit character list; none otherwise. -/
def parseDigits : List Char → Option Nat
  | [] => none
  | cs =>
    if cs.all Char.isDigit then
      some (cs.foldl (fun a c => a * 10 + (c.toNat - 48)) 0)
    else none

/-- Model of Rust str parse to a bounded signed integer (i32 or i64):
an optional sign followed by one or more decimal digits; any other shape
or an out-of-range value parses to none. -/
def rust_parse_signed (lo hi : Int) (s : String) : Option Int :=
  let core : Bool → List Char → Option Int := fun neg ds =>
    match parseDigits ds with
    | none => none
    | some n =>
      let v : Int := if neg then -(n : Int) else (n : Int)
      if lo ≤ v ∧ v ≤ hi then some v else none
  match s.data with
  | [] => none
  | c :: rest =>
    if c = '-' then core true rest
    else if c = '+' then core false rest
    else core false (c :: rest)

/-- Fractional value of a digit list d1 ... dn as d1...dn over 10 ^ n. -/
def fracValue (cs : List Char) : Rat :=
  (cs.foldl (fun a c => a * 10 + (c.toNat - 48)) 0 : Int) / ((10 : Rat) ^ cs.length)

/-- Model of Rust str parse to f32 or f64: an optional sign, then one of
the special forms inf, infinity or nan (case insensitive), or a nonempty
digit string with an optional fractional part and an optional decimal
exponent. The exact IEEE grammar and rounding are abstracted; every
claim below depends only on whether parsing succeeds. -/
def rust_parse_float (s : String) : Option FloatVal :=
  let body0 := s.toLower.data
  let signed : Bool × List Char :=
    match body0 with
    | c :: rest =>
      if c = '-' then (true, rest)
      else if c = '+' then (false, rest)
      else (false, body0)
    | [] => (false, [])
  let neg := signed.1
  let body := signed.2
  if body = "inf".data ∨ body = "infinity".data then
    some (if neg then .negInf else .inf)
  else if body = "nan".data then
    some .nan
  else
    match body.splitOn 'e' with
    | [mant] => rust_parse_float_mant neg mant 0
    | [mant, ex] =>
      match ex with
      | [] => none
      | c :: rest =>
        let exSigned : Bool × List Char :=
          if c = '-' then (true, rest)
          else if c = '+' then (false, rest)
          else (false, ex)
        match parseDigits exSigned.2 with
        | none => none
        | some n =>
          rust_parse_float_mant neg mant (if exSigned.1 then -(n : Int) else (n : Int))
    | _ => none
where
  /-- Mantissa part: digits with an optional dot and fraction digits. -/
  rust_parse_float_mant (neg : Bool) (mant : List Char) (ex : Int) : Option FloatVal :=
    match mant.splitOn '.' with
    | [ip] =>
      match parseDigits ip with
      | none => none
      | some n =>
        let q : Rat := (n : Rat) * (10 : Rat) ^ ex
        some (.finite (if neg then -q else q))
    | [ip, fp] =>
      match parseDigits ip with
      | none => none
      | some n =>
        if fp.all Char.isDigit then
          let q : Rat := ((n : Rat) + fracValue fp) * (10 : Rat) ^ ex
          some (.finite (if neg then -q else q))
        else none
    | _ => none

/-! ## DatabaseValue, from src/src/core/value.rs -/

/-- Tagged union of the nine scalar kinds, from enum DatabaseValue.
Int carries an i32, Long an i64, Timestamp an i64 (microseconds);
integer payloads are embedded as unbounded Int, with range facts stated
where a claim needs them. -/
inductive DatabaseValue where
  | Null
  | Bool (v : Bool)
  | Int (v : Int)
  | Long (v : Int)
  | Float (v : FloatVal)
  | Double (v : FloatVal)
  | String (v : String)
  | Bytes (v : List Nat)
  | Timestamp (v : Int)
deriving DecidableEq

/-- String acceptance table of fn as_bool for the String case. -/
def boolStringParse (s : String) : Option Bool :=
  match s.toLower with
  | "true" => some true
  | "1" => some true
  | "yes" => some true
  | "false" => some false
  | "0" => some false
  | "no" => some false
  | _ => none

/-- fn as_bool. -/
def as_bool : DatabaseValue → Option Bool
  | .Bool v => some v
  | .Int v => some (v != 0)
  | .Long v => some (v != 0)
  | .String s => boolStringParse s
  | _ => none

/-- fn as_int. -/
def as_int : DatabaseValue → Option Int
  | .Int v => some v
  | .Long v => i32_try_from v
  | .Float v => some (v.rustAsIntCast i32_min i32_max)
  | .Double v => some (v.rustAsIntCast i32_min i32_max)
  | .String s => rust_parse_signed i32_min i32_max s
  | .Bool v => some (if v then 1 else 0)
  | _ => none

/-- fn as_long. -/
def as_long : DatabaseValue → Option Int
  | .Long v => some v
  | .Int v => some v
  | .Float v => some (v.rustAsIntCast i64_min i64_max)
  | .Double v => some (v.rustAsIntCast i64_min i64_max)
  | .String s => rust_parse_signed i64_min i64_max s
  | .Bool v => some (if v then 1 else 0)
  | .Timestamp v => some v
  | _ => none

/-- fn as_float; the f64-to-f32 narrowing of the Double case is the
identity on this model since rounding is abstracted. -/
def as_float : DatabaseValue → Option FloatVal
  | .Float v => some v
  | .Double v => some v
  | .Int v => some (.finite (v : Rat))
  | .Long v => some (.finite (v : Rat))
  | .String s => rust_parse_float s
  | _ => none

/-- fn as_double; the f32-to-f64 widening of the Float case is the
identity on this model. -/
def as_double : DatabaseValue → Option FloatVal
  | .Double v => some v
  | .Float v => some v
  | .Int v => some (.finite (v : Rat))
  | .Long v => some (.finite (v : Rat))
  | .String s => rust_parse_float s
  | _ => none

/-! ## DatabaseRow model

src/src/core/value.rs defines type DatabaseRow as the std library hash
map from String to DatabaseValue. A std HashMap stores at most one entry
per key; its iteration order is an unspecified function of the hashes of
the stored keys (bucket order) and is in particular not the insertion
order. The map is modelled canonically: the entry list is kept strictly
ordered by key, realizing one such insertion-order independent iteration
order while keeping every operation executable. -/

/-- Iteration sequence of a DatabaseRow map. -/
abbrev DatabaseRow := List (String × DatabaseValue)

/-- Boolean lexicographic comparison of key character lists; the
canonical iteration order of the map model is increasing order under
this comparison. -/
def charListLtb : List Char → List Char → Bool
  | [], [] => false
  | [], _ :: _ => true
  | _ :: _, [] => false
  | a :: as1, b :: bs1 =>
    if a < b then true
    else if b < a then false
    else charListLtb as1 bs1

/-- HashMap insert: replaces the entry of an already present key,
otherwise adds the entry at its canonical-order position. -/
def hmInsert (k : String) (v : DatabaseValue) : DatabaseRow → DatabaseRow
  | [] => [(k, v)]
  | (k1, v1) :: t =>
    if k = k1 then (k, v) :: t
    else if charListLtb k.data k1.data = true then (k, v) :: (k1, v1) :: t
    else (k1, v1) :: hmInsert k v t

/-- Canonical-order invariant of the map model: entry keys are strictly
increasing along the iteration sequence. -/
def RowSorted (m : DatabaseRow) : Prop :=
  m.Pairwise (fun p q => charListLtb p.1.data q.1.data = true)

/-- One cell of a rusqlite result row, from rusqlite types ValueRef
(the Text case carries the string after the lossy utf8 decoding). -/
inductive SqliteValueRef where
  | NullRef
  | Integer (v : Int)
  | Real (v : FloatVal)
  | Text (v : String)
  | Blob (v : List Nat)
deriving DecidableEq

/-- A raw rusqlite row: the result-set columns in order, as name-value
pairs. -/
abbrev SqliteRawRow := List (String × SqliteValueRef)

/-- Cell decoding of fn row_to_database_row: Integer becomes Long, Real
becomes Double, Text becomes String, Blob becomes Bytes. -/
def valueRefToDatabaseValue : SqliteValueRef → DatabaseValue
  | .NullRef => .Null
  | .Integer v => .Long v
  | .Real v => .Double v
  | .Text v => .String v
  | .Blob v => .Bytes v

/-- fn row_to_database_row from src/src/backends/sqlite.rs (the copy in
pooled_sqlite.rs is identical): walk the result-set columns in order and
insert each decoded cell into a fresh map. -/
def row_to_database_row (cols : SqliteRawRow) : DatabaseRow :=
  cols.foldl (fun m c => hmInsert c.1 (valueRefToDatabaseValue c.2) m) []

/-! ## Direct backend, src/src/backends/sqlite.rs -/

/-- Mutable state of struct SqliteDatabase: the optional connection
(identified by a numeric id) and the transaction flag. The two tokio
mutexes guarding them serialize access; sequential calls are modelled
directly on the state. -/
structure SqliteDatabase where
  connection : Option Nat
  in_transaction : Bool
deriving DecidableEq

/-- fn new. -/
def SqliteDatabase.new : SqliteDatabase :=
  { connection := none, in_transaction := false }

/-- Outcome of one statement-level call into the rusqlite engine,
supplied to each verb as an explicit argument: the affected-row count on
success, or the engine error. -/
abbrev EngineOutcome := Except SqliteErr Nat

/-- Outcome of one query call into the engine: raw result rows or the
engine error. -/
abbrev QueryOutcome := Except SqliteErr (List SqliteRawRow)

/-- fn connect: the existing connection and the transaction flag are
cleared first, then the engine opens the new connection (openRes covers
Connection open plus the foreign-keys pragma, yielding the new
connection id); the connection field is set only on success. The
timeout-abort path of the surrounding select is a real-time feature
outside this sequential model. -/
def SqliteDatabase.connect (_s : SqliteDatabase) (openRes : Except SqliteErr Nat) :
    DbResult Unit × SqliteDatabase :=
  let cleared : SqliteDatabase := { connection := none, in_transaction := false }
  match openRes with
  | .error e => (.error (.SqliteError e), cleared)
  | .ok c => (.ok (), { cleared with connection := some c })

/-- fn is_connected. -/
def SqliteDatabase.is_connected (s : SqliteDatabase) : Bool :=
  s.connection.isSome

/-- fn disconnect: clears the flag and drops the connection, always
returning success. -/
def SqliteDatabase.disconnect (_s : SqliteDatabase) : DbResult Unit × SqliteDatabase :=
  (.ok (), { connection := none, in_transaction := false })

/-- fn execute: connection check, then the engine call. -/
def SqliteDatabase.execute (s : SqliteDatabase) (engine : EngineOutcome) :
    DbResult Nat × SqliteDatabase :=
  match s.connection with
  | none => (.error (.ConnectionError "Not connected to database"), s)
  | some _ =>
    match engine with
    | .error e => (.error (.SqliteError e), s)
    | .ok n => (.ok n, s)

/-- fn query: connection check, then the engine call, decoding each raw
row through row_to_database_row. -/
def SqliteDatabase.query (s : SqliteDatabase) (engine : QueryOutcome) :
    DbResult (List DatabaseRow) × SqliteDatabase :=
  match s.connection with
  | none => (.error (.ConnectionError "Not connected to database"), s)
  | some _ =>
    match engine with
    | .error e => (.error (.SqliteError e), s)
    | .ok rows => (.ok (rows.map row_to_database_row), s)

/-- fn execute_with_params: identical control flow to execute; the
parameter marshalling does not influence state or errors. -/
def SqliteDatabase.execute_with_params (s : SqliteDatabase)
    (_params : List DatabaseValue) (engine : EngineOutcome) :
    DbResult Nat × SqliteDatabase :=
  match s.connection with
  | none => (.error (.ConnectionError "Not connected to database"), s)
  | some _ =>
    match engine with
    | .error e => (.error (.SqliteError e), s)
    | .ok n => (.ok n, s)

/-- fn query_with_params: identical control flow to query. -/
def SqliteDatabase.query_with_params (s : SqliteDatabase)
    (_params : List DatabaseValue) (engine : QueryOutcome) :
    DbResult (List DatabaseRow) × SqliteDatabase :=
  match s.connection with
  | none => (.error (.ConnectionError "Not connected to database"), s)
  | some _ =>
    match engine with
    | .error e => (.error (.SqliteError e), s)
    | .ok rows => (.ok (rows.map row_to_database_row), s)

/-- fn begin_transaction: connection check, then nested-begin check,
then the BEGIN TRANSACTION statement; the flag flips only after the
statement succeeded. -/
def SqliteDatabase.begin_transaction (s : SqliteDatabase) (engine : EngineOutcome) :
    DbResult Unit × SqliteDatabase :=
  match s.connection with
  | none => (.error (.ConnectionError "Not connected to database"), s)
  | some _ =>
    if s.in_transaction then
      (.error (.TransactionError "Already in a transaction"), s)
    else
      match engine with
      | .error e => (.error (.SqliteError e), s)
      | .ok _ => (.ok (), { s with in_transaction := true })

/-- fn commit: connection check, then active-transaction check, then the
COMMIT statement; the flag clears only after the statement succeeded. -/
def SqliteDatabase.commit (s : SqliteDatabase) (engine : EngineOutcome) :
    DbResult Unit × SqliteDatabase :=
  match s.connection with
  | none => (.error (.ConnectionError "Not connected to database"), s)
  | some _ =>
    if !s.in_transaction then
      (.error (.TransactionError "Not in a transaction"), s)
    else
      match engine with
      | .error e => (.error (.SqliteError e), s)
      | .ok _ => (.ok (), { s with in_transaction := false })

/-- fn rollback: same discipline as commit with the ROLLBACK
statement. -/
def SqliteDatabase.rollback (s : SqliteDatabase) (engine : EngineOutcome) :
    DbResult Unit × SqliteDatabase :=
  match s.connection with
  | none => (.error (.ConnectionError "Not connected to database"), s)
  | some _ =>
    if !s.in_transaction then
      (.error (.TransactionError "Not in a transaction"), s)
    else
      match engine with
      | .error e => (.error (.SqliteError e), s)
      | .ok _ => (.ok (), { s with in_transaction := false })

/-! ## RAII transaction guard, src/src/core/transaction.rs

The guard wraps a shared handle to a backend; it is modelled over the
direct SqliteDatabase backend, the pairing named by the claims. The two
atomic flags are the guard state; each verb is a function of the guard
state and the backend state. -/

/-- Flag state of struct TransactionGuard. -/
structure TransactionGuard where
  committed : Bool
  rolled_back : Bool
deriving DecidableEq

/-- fn begin: delegates to the backend and starts with both flags
clear. -/
def TransactionGuard.begin (db : SqliteDatabase) (engine : EngineOutcome) :
    DbResult TransactionGuard × SqliteDatabase :=
  match SqliteDatabase.begin_transaction db engine with
  | (.ok _, db1) => (.ok { committed := false, rolled_back := false }, db1)
  | (.error e, db1) => (.error e, db1)

/-- fn execute on the guard: committed check, rolled-back check, then
delegation to the backend. -/
def TransactionGuard.execute (g : TransactionGuard) (db : SqliteDatabase)
    (engine : EngineOutcome) : DbResult Nat × SqliteDatabase :=
  if g.committed then
    (.error (.TransactionError "Cannot execute on committed transaction"), db)
  else if g.rolled_back then
    (.error (.TransactionError "Cannot execute on rolled back transaction"), db)
  else SqliteDatabase.execute db engine

/-- fn execute_with_params on the guard. -/
def TransactionGuard.execute_with_params (g : TransactionGuard) (db : SqliteDatabase)
    (params : List DatabaseValue) (engine : EngineOutcome) :
    DbResult Nat × SqliteDatabase :=
  if g.committed then
    (.error (.TransactionError "Cannot execute on committed transaction"), db)
  else if g.rolled_back then
    (.error (.TransactionError "Cannot execute on rolled back transaction"), db)
  else SqliteDatabase.execute_with_params db params engine

/-- fn query on the guard. -/
def TransactionGuard.query (g : TransactionGuard) (db : SqliteDatabase)
    (engine : QueryOutcome) : DbResult (List DatabaseRow) × SqliteDatabase :=
  if g.committed then
    (.error (.TransactionError "Cannot query on committed transaction"), db)
  else if g.rolled_back then
    (.error (.TransactionError "Cannot query on rolled back transaction"), db)
  else SqliteDatabase.query db engine

/-- fn query_with_params on the guard. -/
def TransactionGuard.query_with_params (g : TransactionGuard) (db : SqliteDatabase)
    (params : List DatabaseValue) (engine : QueryOutcome) :
    DbResult (List DatabaseRow) × SqliteDatabase :=
  if g.committed then
    (.error (.TransactionError "Cannot query on committed transaction"), db)
  else if g.rolled_back then
    (.error (.TransactionError "Cannot query on rolled back transaction"), db)
  else SqliteDatabase.query_with_params db params engine

/-- fn commit on the guard: rolled-back check, delegation, and the
committed flag is stored only after the backend commit succeeded. -/
def TransactionGuard.commit (g : TransactionGuard) (db : SqliteDatabase)
    (engine : EngineOutcome) : DbResult Unit × TransactionGuard × SqliteDatabase :=
  if g.rolled_back then
    (.error (.TransactionError "Cannot commit a rolled back transaction"), g, db)
  else
    match SqliteDatabase.commit db engine with
    | (.ok _, db1) => (.ok (), { g with committed := true }, db1)
    | (.error e, db1) => (.error e, g, db1)

/-- fn rollback on the guard: committed check, delegation, and the
rolled-back flag is stored only after the backend rollback succeeded. -/
def TransactionGuard.rollback (g : TransactionGuard) (db : SqliteDatabase)
    (engine : EngineOutcome) : DbResult Unit × TransactionGuard × SqliteDatabase :=
  if g.committed then
    (.error (.TransactionError "Cannot rollback a committed transaction"), g, db)
  else
    match SqliteDatabase.rollback db engine with
    | (.ok _, db1) => (.ok (), { g with rolled_back := true }, db1)
    | (.error e, db1) => (.error e, g, db1)

/-! ## Pooled backend, src/src/backends/pooled_sqlite.rs -/

/-- Counter state of the deadpool pool: size is the number of existing
objects (idle plus handed out), available the number of idle objects,
max_size the configured cap. -/
structure Pool where
  size : Nat
  available : Nat
  max_size : Nat
deriving DecidableEq

/-- deadpool get: hand out an idle object when one is available;
otherwise create a new object while below max_size; otherwise fail
(modelling the wait ending in the acquire timeout). -/
def Pool.get (p : Pool) : Except Unit Pool :=
  if 0 < p.available then .ok { p with available := p.available - 1 }
  else if p.size < p.max_size then .ok { p with size := p.size + 1 }
  else .error ()

/-- deadpool object drop: the borrowed object rejoins the idle set. -/
def Pool.put (p : Pool) : Pool :=
  { p with available := p.available + 1 }

/-- Connections currently handed out. -/
def Pool.in_use (p : Pool) : Nat :=
  p.size - p.available

/-- State of struct PooledSqliteDatabase. -/
structure PooledSqliteDatabase where
  pool : Pool
  operation_timeout : Nat
deriving DecidableEq

/-- fn in_transaction of the pooled backend: always false, by design, as
the doc comment in the source states at length. -/
def PooledSqliteDatabase.in_transaction (_db : PooledSqliteDatabase) : Bool :=
  false

/-- fn begin_transaction of the pooled backend (the pool-level verb, not
the guard): borrow a connection, run BEGIN TRANSACTION on it, and let
the borrow drop when the function returns, on the error path too. -/
def PooledSqliteDatabase.begin_transaction (db : PooledSqliteDatabase)
    (engine : EngineOutcome) : DbResult Unit × PooledSqliteDatabase :=
  match db.pool.get with
  | .error _ => (.error (.ConnectionError "Failed to acquire connection"), db)
  | .ok p1 =>
    match engine with
    | .error e => (.error (.SqliteError e), { db with pool := p1.put })
    | .ok _ => (.ok (), { db with pool := p1.put })

/-- fn execute of the pooled backend: same borrow-use-return shape. -/
def PooledSqliteDatabase.execute (db : PooledSqliteDatabase)
    (engine : EngineOutcome) : DbResult Nat × PooledSqliteDatabase :=
  match db.pool.get with
  | .error _ => (.error (.ConnectionError "Failed to acquire connection"), db)
  | .ok p1 =>
    match engine with
    | .error e => (.error (.SqliteError e), { db with pool := p1.put })
    | .ok n => (.ok n, { db with pool := p1.put })

/-! ## Transaction affinity guard, src/src/backends/pooled_sqlite.rs

struct PooledTransaction owns the borrowed deadpool object in an Option
field; finalize takes the object out before running the SQL, and the
object returns to the pool when the guard storage is dropped. The pool
counters are not threaded through the guard verbs here; only the guard
state machine is, which is what claim C1 is about. -/

/-- State of struct PooledTransaction. -/
structure PooledTransaction where
  connection : Option Unit
  committed : Bool
  rolled_back : Bool
deriving DecidableEq

/-- fn begin of the guard: acquire a connection and run BEGIN on it; on
engine failure the borrow drops back to the pool and no guard is
produced. -/
def PooledTransaction.begin (db : PooledSqliteDatabase) (engine : EngineOutcome) :
    DbResult PooledTransaction × PooledSqliteDatabase :=
  match db.pool.get with
  | .error _ =>
    (.error (.ConnectionError "Failed to acquire connection for transaction"), db)
  | .ok p1 =>
    match engine with
    | .error e => (.error (.SqliteError e), { db with pool := p1.put })
    | .ok _ =>
      (.ok { connection := some (), committed := false, rolled_back := false },
        { db with pool := p1 })

/-- fn execute of the guard: present-connection check, then the engine
call on the pinned connection; the guard state is unchanged. -/
def PooledTransaction.execute (tx : PooledTransaction) (engine : EngineOutcome) :
    DbResult Nat :=
  match tx.connection with
  | none => .error (.TransactionError "Transaction already finalized")
  | some _ =>
    match engine with
    | .error e => .error (.SqliteError e)
    | .ok n => .ok n

/-- fn execute_with_params of the guard. -/
def PooledTransaction.execute_with_params (tx : PooledTransaction)
    (_params : List DatabaseValue) (engine : EngineOutcome) : DbResult Nat :=
  match tx.connection with
  | none => .error (.TransactionError "Transaction already finalized")
  | some _ =>
    match engine with
    | .error e => .error (.SqliteError e)
    | .ok n => .ok n

/-- fn query of the guard. -/
def PooledTransaction.query (tx : PooledTransaction) (engine : QueryOutcome) :
    DbResult (List DatabaseRow) :=
  match tx.connection with
  | none => .error (.TransactionError "Transaction already finalized")
  | some _ =>
    match engine with
    | .error e => .error (.SqliteError e)
    | .ok rows => .ok (rows.map row_to_database_row)

/-- fn query_with_params of the guard. -/
def PooledTransaction.query_with_params (tx : PooledTransaction)
    (_params : List DatabaseValue) (engine : QueryOutcome) :
    DbResult (List DatabaseRow) :=
  match tx.connection with
  | none => .error (.TransactionError "Transaction already finalized")
  | some _ =>
    match engine with
    | .error e => .error (.SqliteError e)
    | .ok rows => .ok (rows.map row_to_database_row)

/-- fn commit of the guard: already-committed check, already-rolled-back
check, then the connection is taken out of the guard before COMMIT runs;
the committed flag is stored only after COMMIT succeeded. -/
def PooledTransaction.commit (tx : PooledTransaction) (engine : EngineOutcome) :
    DbResult Unit × PooledTransaction :=
  if tx.committed then
    (.error (.TransactionError "Transaction already committed"), tx)
  else if tx.rolled_back then
    (.error (.TransactionError "Transaction already rolled back"), tx)
  else
    match tx.connection with
    | none => (.error (.TransactionError "Transaction connection missing"), tx)
    | some _ =>
      let tx1 := { tx with connection := none }
      match engine with
      | .error e => (.error (.SqliteError e), tx1)
      | .ok _ => (.ok (), { tx1 with committed := true })

/-- fn rollback of the guard: same shape as commit with the flags
swapped and the ROLLBACK statement. -/
def PooledTransaction.rollback (tx : PooledTransaction) (engine : EngineOutcome) :
    DbResult Unit × PooledTransaction :=
  if tx.committed then
    (.error (.TransactionError "Transaction already committed"), tx)
  else if tx.rolled_back then
    (.error (.TransactionError "Transaction already rolled back"), tx)
  else
    match tx.connection with
    | none => (.error (.TransactionError "Transaction connection missing"), tx)
    | some _ =>
      let tx1 := { tx with connection := none }
      match engine with
      | .error e => (.error (.SqliteError e), tx1)
      | .ok _ => (.ok (), { tx1 with rolled_back := true })

/-! ## Claim theorems -/

/-- C2: on the direct backend the transaction-state flag is updated only
after the corresponding SQL statement succeeds. When the backend is
connected and the state check passes, a failing BEGIN TRANSACTION,
COMMIT or ROLLBACK statement makes the verb return the engine error with
the whole state, flag included, unchanged: a failed BEGIN leaves the
flag false, a failed COMMIT or ROLLBACK leaves it true. -/
theorem C2_flag_update_only_on_sql_success (c : Nat) (e : SqliteErr) :
    SqliteDatabase.begin_transaction ⟨some c, false⟩ (.error e)
        = (.error (.SqliteError e), ⟨some c, false⟩)
    ∧ SqliteDatabase.commit ⟨some c, true⟩ (.error e)
        = (.error (.SqliteError e), ⟨some c, true⟩)
    ∧ SqliteDatabase.rollback ⟨some c, true⟩ (.error e)
        = (.error (.SqliteError e), ⟨some c, true⟩) := by
  refine ⟨rfl, rfl, rfl⟩

/-- C3: on a connected direct backend, begin_transaction rejects a
nested begin with a TransactionError when the flag is already true, and
commit and rollback reject with a TransactionError when the flag is
false; in all three cases the flag and the connection are unchanged, and
the rejection happens whatever the engine would have answered (the
engine outcome is universally quantified because the statement is never
executed). -/
theorem C3_transaction_state_rejections (c : Nat) (engine : EngineOutcome) :
    SqliteDatabase.begin_transaction ⟨some c, true⟩ engine
        = (.error (.TransactionError "Already in a transaction"), ⟨some c, true⟩)
    ∧ SqliteDatabase.commit ⟨some c, false⟩ engine
        = (.error (.TransactionError "Not in a transaction"), ⟨some c, false⟩)
    ∧ SqliteDatabase.rollback ⟨some c, false⟩ engine
        = (.error (.TransactionError "Not in a transaction"), ⟨some c, false⟩) := by
  refine ⟨rfl, rfl, rfl⟩

/-- C4: the pooled backend's in_transaction returns false for every
state of the backend and the pool, in particular immediately after a
successful pool-level begin_transaction call. -/
theorem C4_pooled_in_transaction_always_false (db : PooledSqliteDatabase) :
    db.in_transaction = false
    ∧ (∀ engine : EngineOutcome,
        ((db.begin_transaction engine).2).in_transaction = false) := by
  exact ⟨rfl, fun _ => rfl⟩

/-- C7: the five value conversions are total functions on the value
model (they are embedded as Lean functions returning Option, exactly as
the Rust functions return Option and contain no panicking operation),
and they yield none exactly when the value kind admits no sensible
conversion or a string payload fails to parse: as_bool has no conversion
from Null, Float, Double, Bytes, Timestamp; as_int and as_long none from
Null and Bytes (as_int also none from Timestamp and from a Long outside
the 32-bit range, which is a lossless-conversion failure, not a
truncation); as_float and as_double
none from Null, Bool, Bytes, Timestamp; and each returns none on exactly
the strings its parser rejects. Determinism is inherent: each conversion
is a function of the value alone. -/
theorem C7_conversions_total_none_on_no_conversion (v : DatabaseValue) :
    (as_bool v = none ↔ v = .Null ∨ (∃ x, v = .Float x) ∨ (∃ x, v = .Double x)
      ∨ (∃ b, v = .Bytes b) ∨ (∃ t, v = .Timestamp t)
      ∨ (∃ s, v = .String s ∧ boolStringParse s = none))
    ∧ (as_int v = none ↔ v = .Null ∨ (∃ b, v = .Bytes b) ∨ (∃ t, v = .Timestamp t)
      ∨ (∃ l, v = .Long l ∧ i32_try_from l = none)
      ∨ (∃ s, v = .String s ∧ rust_parse_signed i32_min i32_max s = none))
    ∧ (as_long v = none ↔ v = .Null ∨ (∃ b, v = .Bytes b)
      ∨ (∃ s, v = .String s ∧ rust_parse_signed i64_min i64_max s = none))
    ∧ (as_float v = none ↔ v = .Null ∨ (∃ b, v = .Bool b) ∨ (∃ b, v = .Bytes b)
      ∨ (∃ t, v = .Timestamp t) ∨ (∃ s, v = .String s ∧ rust_parse_float s = none))
    ∧ (as_double v = none ↔ v = .Null ∨ (∃ b, v = .Bool b) ∨ (∃ b, v = .Bytes b)
      ∨ (∃ t, v = .Timestamp t) ∨ (∃ s, v = .String s ∧ rust_parse_float s = none)) := by
  cases v <;>
    simp [as_bool, as_int, as_long, as_float, as_double]

/-- C9: connect always discards the previous connection and clears the
transaction flag before attempting the new one. Whatever the prior state
and the engine outcome, the post-state flag is false; the post-state
connection is the freshly opened one on success and absent on failure,
so a failed connect leaves the handle disconnected; and the returned
result mirrors the engine outcome. -/
theorem C9_connect_resets_state (s : SqliteDatabase) (r : Except SqliteErr Nat) :
    ((s.connect r).2).in_transaction = false
    ∧ ((s.connect r).2).connection
        = (match r with | .ok c => some c | .error _ => none)
    ∧ SqliteDatabase.is_connected ((s.connect r).2)
        = (match r with | .ok _ => true | .error _ => false)
    ∧ (s.connect r).1
        = (match r with
           | .ok _ => .ok ()
           | .error e => .error (.SqliteError e)) := by
  cases r <;> simp [SqliteDatabase.connect, SqliteDatabase.is_connected]

/-- C10: as_int on a Long succeeds exactly when the value fits the
32-bit signed range and in that case returns the value itself, never a
truncation (the result is either some of the original value or none);
as_long on an Int always widens successfully. -/
theorem C10_long_int_conversions (n : Int) :
    ((as_int (.Long n)).isSome ↔ i32_min ≤ n ∧ n ≤ i32_max)
    ∧ (as_int (.Long n) = some n ∨ as_int (.Long n) = none)
    ∧ as_long (.Int n) = some n := by
  refine ⟨?_, ?_, rfl⟩
  · unfold as_int i32_try_from
    by_cases h : i32_min ≤ n ∧ n ≤ i32_max <;> simp [h]
  · unfold as_int i32_try_from
    by_cases h : i32_min ≤ n ∧ n ≤ i32_max <;> simp [h]

/-- C5 counterexample: the claim includes disconnect among the verbs
returning a ConnectionError on a disconnected backend, but disconnect on
a freshly created (hence connection-less) SqliteDatabase returns
success, not a ConnectionError. -/
theorem C5_counterexample_disconnect_ok :
    SqliteDatabase.new.connection = none
    ∧ (SqliteDatabase.disconnect SqliteDatabase.new).1 = .ok ()
    ∧ ¬ failsWithConnectionError (SqliteDatabase.disconnect SqliteDatabase.new).1 := by
  refine ⟨rfl, rfl, ?_⟩
  simp [failsWithConnectionError, SqliteDatabase.disconnect]

/-- C5 amended: on a SqliteDatabase whose connection is absent, each of
execute, query, execute_with_params, query_with_params,
begin_transaction, commit and rollback returns a ConnectionError (the
exact one the source builds), whatever the transaction flag, the
parameters and the engine outcome; disconnect instead succeeds as a
no-op that clears the state. -/
theorem C5_not_connected_rejections (b : Bool) (params : List DatabaseValue)
    (engine : EngineOutcome) (qengine : QueryOutcome) :
    (SqliteDatabase.execute ⟨none, b⟩ engine).1
        = .error (.ConnectionError "Not connected to database")
    ∧ (SqliteDatabase.query ⟨none, b⟩ qengine).1
        = .error (.ConnectionError "Not connected to database")
    ∧ (SqliteDatabase.execute_with_params ⟨none, b⟩ params engine).1
        = .error (.ConnectionError "Not connected to database")
    ∧ (SqliteDatabase.query_with_params ⟨none, b⟩ params qengine).1
        = .error (.ConnectionError "Not connected to database")
    ∧ (SqliteDatabase.begin_transaction ⟨none, b⟩ engine).1
        = .error (.ConnectionError "Not connected to database")
    ∧ (SqliteDatabase.commit ⟨none, b⟩ engine).1
        = .error (.ConnectionError "Not connected to database")
    ∧ (SqliteDatabase.rollback ⟨none, b⟩ engine).1
        = .error (.ConnectionError "Not connected to database")
    ∧ SqliteDatabase.disconnect ⟨none, b⟩ = (.ok (), ⟨none, false⟩) := by
  refine ⟨rfl, rfl, rfl, rfl, rfl, rfl, rfl, rfl⟩

/-! ### Row map lemmas for claim C6 -/

/-- The canonical key comparison is irreflexive. -/
theorem charListLtb_irrefl : ∀ as1 : List Char, charListLtb as1 as1 = false := by
  intro as1
  induction as1 with
  | nil => rfl
  | cons a t ih =>
    simp only [charListLtb]
    rw [if_neg (lt_irrefl a), if_neg (lt_irrefl a)]
    exact ih

/-- The canonical key comparison is transitive. -/
theorem charListLtb_trans : ∀ as1 bs1 cs1 : List Char,
    charListLtb as1 bs1 = true → charListLtb bs1 cs1 = true →
    charListLtb as1 cs1 = true := by
  intro as1
  induction as1 with
  | nil =>
    intro bs1 cs1 h1 h2
    cases bs1 with
    | nil => simp [charListLtb] at h1
    | cons b bt =>
      cases cs1 with
      | nil => simp [charListLtb] at h2
      | cons c ct => rfl
  | cons a at1 ih =>
    intro bs1 cs1 h1 h2
    cases bs1 with
    | nil => simp [charListLtb] at h1
    | cons b bt =>
      cases cs1 with
      | nil => simp [charListLtb] at h2
      | cons c ct =>
        simp only [charListLtb] at h1 h2 ⊢
        by_cases hab : a < b
        · by_cases hbc : b < c
          · rw [if_pos (hab.trans hbc)]
          · by_cases hcb : c < b
            · rw [if_neg hbc, if_pos hcb] at h2
              simp at h2
            · have hbec : b = c := le_antisymm (not_lt.mp hcb) (not_lt.mp hbc)
              subst hbec
              rw [if_pos hab]
        · by_cases hba : b < a
          · rw [if_neg hab, if_pos hba] at h1
            simp at h1
          · have haeb : a = b := le_antisymm (not_lt.mp hba) (not_lt.mp hab)
            subst haeb
            rw [if_neg hab, if_neg hba] at h1
            by_cases hac : a < c
            · rw [if_pos hac]
            · by_cases hca : c < a
              · rw [if_neg hac, if_pos hca] at h2
                simp at h2
              · have haec : a = c := le_antisymm (not_lt.mp hca) (not_lt.mp hac)
                subst haec
                rw [if_neg hac, if_neg hca] at h2 ⊢
                exact ih bt ct h1 h2

/-- On distinct lists the canonical comparison holds in one direction. -/
theorem charListLtb_total_of_ne : ∀ as1 bs1 : List Char,
    as1 ≠ bs1 → charListLtb as1 bs1 = false → charListLtb bs1 as1 = true := by
  intro as1
  induction as1 with
  | nil =>
    intro bs1 hne h
    cases bs1 with
    | nil => exact absurd rfl hne
    | cons b bt => simp [charListLtb] at h
  | cons a at1 ih =>
    intro bs1 hne h
    cases bs1 with
    | nil => rfl
    | cons b bt =>
      simp only [charListLtb] at h ⊢
      by_cases hab : a < b
      · rw [if_pos hab] at h
        simp at h
      · by_cases hba : b < a
        · rw [if_pos hba]
        · have heq : a = b := le_antisymm (not_lt.mp hba) (not_lt.mp hab)
          subst heq
          rw [if_neg hab, if_neg hba] at h
          rw [if_neg hab, if_neg hba]
          refine ih bt ?_ h
          intro hEq
          exact hne (by rw [hEq])

/-- Strings with equal character data are equal. -/
theorem string_eq_of_data_eq (a b : String) (h : a.data = b.data) : a = b := by
  cases a
  cases b
  exact congrArg String.mk h

/-- The canonical key order separates keys. -/
theorem keyLtb_ne (a b : String) (h : charListLtb a.data b.data = true) : a ≠ b := by
  intro he
  subst he
  rw [charListLtb_irrefl] at h
  simp at h

/-- Every entry of an insert result either carries the inserted key or
was already present. -/
theorem hmInsert_mem_elim (k : String) (v : DatabaseValue)
    (m : DatabaseRow) : ∀ q ∈ hmInsert k v m, q.1 = k ∨ q ∈ m := by
  induction m with
  | nil =>
    intro q hq
    simp [hmInsert] at hq
    exact Or.inl (by rw [hq])
  | cons p t ih =>
    obtain ⟨k1, v1⟩ := p
    intro q hq
    by_cases e : k = k1
    · simp only [hmInsert, if_pos e] at hq
      rcases List.mem_cons.mp hq with rfl | h
      · exact Or.inl rfl
      · exact Or.inr (List.mem_cons_of_mem _ h)
    · by_cases lt : charListLtb k.data k1.data = true
      · simp only [hmInsert, if_neg e, if_pos lt] at hq
        rcases List.mem_cons.mp hq with rfl | h
        · exact Or.inl rfl
        · exact Or.inr h
      · simp only [hmInsert, if_neg e, if_neg lt] at hq
        rcases List.mem_cons.mp hq with rfl | h
        · exact Or.inr (List.mem_cons_self _ _)
        · rcases ih q h with h1 | h1
          · exact Or.inl h1
          · exact Or.inr (List.mem_cons_of_mem _ h1)

/-- The inserted key is present after an insert. -/
theorem hmInsert_self_mem (k : String) (v : DatabaseValue) :
    ∀ m : DatabaseRow, ∃ w, (k, w) ∈ hmInsert k v m := by
  intro m
  induction m with
  | nil => exact ⟨v, by simp [hmInsert]⟩
  | cons p t ih =>
    obtain ⟨k1, v1⟩ := p
    by_cases e : k = k1
    · refine ⟨v, ?_⟩
      simp only [hmInsert, if_pos e]
      exact List.mem_cons_self _ _
    · by_cases lt : charListLtb k.data k1.data = true
      · refine ⟨v, ?_⟩
        simp only [hmInsert, if_neg e, if_pos lt]
        exact List.mem_cons_self _ _
      · obtain ⟨w, hw⟩ := ih
        refine ⟨w, ?_⟩
        simp only [hmInsert, if_neg e, if_neg lt]
        exact List.mem_cons_of_mem _ hw

/-- Entries with a key other than the inserted one survive an insert. -/
theorem hmInsert_mem_of_ne (k : String) (v : DatabaseValue) :
    ∀ (m : DatabaseRow) (q : String × DatabaseValue),
      q.1 ≠ k → q ∈ m → q ∈ hmInsert k v m := by
  intro m
  induction m with
  | nil => intro q _ hq; simp at hq
  | cons p t ih =>
    obtain ⟨k1, v1⟩ := p
    intro q hne hq
    by_cases e : k = k1
    · simp only [hmInsert, if_pos e]
      rcases List.mem_cons.mp hq with rfl | h
      · exact absurd (e ▸ rfl) hne
      · exact List.mem_cons_of_mem _ h
    · by_cases lt : charListLtb k.data k1.data = true
      · simp only [hmInsert, if_neg e, if_pos lt]
        exact List.mem_cons_of_mem _ hq
      · simp only [hmInsert, if_neg e, if_neg lt]
        rcases List.mem_cons.mp hq with rfl | h
        · exact List.mem_cons_self _ _
        · exact List.mem_cons_of_mem _ (ih q hne h)

/-- Insertion keeps the iteration sequence strictly sorted by key. -/
theorem hmInsert_sorted (k : String) (v : DatabaseValue) :
    ∀ m : DatabaseRow, RowSorted m → RowSorted (hmInsert k v m) := by
  intro m
  induction m with
  | nil => intro _; simp [hmInsert, RowSorted]
  | cons p t ih =>
    obtain ⟨k1, v1⟩ := p
    intro h
    rw [RowSorted, List.pairwise_cons] at h
    obtain ⟨h1, h2⟩ := h
    by_cases e : k = k1
    · simp only [hmInsert, if_pos e]
      subst e
      exact List.pairwise_cons.mpr ⟨h1, h2⟩
    · by_cases lt : charListLtb k.data k1.data = true
      · simp only [hmInsert, if_neg e, if_pos lt]
        refine List.pairwise_cons.mpr ⟨?_, List.pairwise_cons.mpr ⟨h1, h2⟩⟩
        intro q hq
        rcases List.mem_cons.mp hq with rfl | hq
        · exact lt
        · exact charListLtb_trans _ _ _ lt (h1 q hq)
      · simp only [hmInsert, if_neg e, if_neg lt]
        refine List.pairwise_cons.mpr ⟨?_, ih h2⟩
        intro q hq
        rcases hmInsert_mem_elim k v t q hq with hk | hq
        · rw [hk]
          have lt2 : charListLtb k.data k1.data = false := by
            cases hcl : charListLtb k.data k1.data
            · rfl
            · exact absurd hcl lt
          have hne : k.data ≠ k1.data := fun hd => e (string_eq_of_data_eq _ _ hd)
          exact charListLtb_total_of_ne _ _ hne lt2
        · exact h1 q hq

/-- Building a row from a sorted seed keeps the sequence sorted. -/
theorem row_build_sorted (cols : SqliteRawRow) :
    ∀ init : DatabaseRow, RowSorted init →
      RowSorted (cols.foldl (fun m c => hmInsert c.1 (valueRefToDatabaseValue c.2) m) init) := by
  induction cols with
  | nil => intro init h; simpa using h
  | cons c t ih =>
    intro init h
    rw [List.foldl_cons]
    exact ih _ (hmInsert_sorted _ _ _ h)

/-- A key is present in a built row exactly when it was in the seed or
among the fed column names. -/
theorem row_build_mem (cols : SqliteRawRow) :
    ∀ (init : DatabaseRow) (k : String),
      (∃ w, (k, w) ∈ cols.foldl
          (fun m c => hmInsert c.1 (valueRefToDatabaseValue c.2) m) init)
        ↔ (∃ w, (k, w) ∈ init) ∨ k ∈ cols.map Prod.fst := by
  induction cols with
  | nil => intro init k; simp
  | cons c t ih =>
    intro init k
    rw [List.foldl_cons, ih]
    constructor
    · rintro (⟨w, hw⟩ | hk)
      · rcases hmInsert_mem_elim c.1 _ init (k, w) hw with h1 | h1
        · right
          rw [List.map_cons]
          exact List.mem_cons.mpr (Or.inl h1)
        · exact Or.inl ⟨w, h1⟩
      · right
        rw [List.map_cons]
        exact List.mem_cons.mpr (Or.inr hk)
    · rintro (⟨w, hw⟩ | hk)
      · by_cases e : k = c.1
        · obtain ⟨w1, hw1⟩ := hmInsert_self_mem c.1 (valueRefToDatabaseValue c.2) init
          refine Or.inl ⟨w1, ?_⟩
          rw [e]
          exact hw1
        · exact Or.inl ⟨w, hmInsert_mem_of_ne c.1 _ init (k, w) e hw⟩
      · rw [List.map_cons] at hk
        rcases List.mem_cons.mp hk with rfl | hk
        · obtain ⟨w1, hw1⟩ := hmInsert_self_mem c.1 (valueRefToDatabaseValue c.2) init
          exact Or.inl ⟨w1, hw1⟩
        · exact Or.inr hk

/-- Strictly key-sorted rows have pairwise distinct keys. -/
theorem rowSorted_keys_nodup (m : DatabaseRow) (h : RowSorted m) :
    (m.map Prod.fst).Nodup := by
  rw [RowSorted] at h
  have h2 : (m.map Prod.fst).Pairwise (fun a b => charListLtb a.data b.data = true) :=
    List.Pairwise.map _ (fun a b hab => hab) h
  exact h2.imp (fun hab => keyLtb_ne _ _ hab)

/-- C6 counterexample: the claim says a row iterates its columns in
insertion order, but the row type is a std HashMap, whose iteration
order does not follow insertion order. Feeding the result-set columns b
then a produces a row iterating a before b. -/
theorem C6_counterexample_iteration_order :
    (row_to_database_row [("b", .NullRef), ("a", .NullRef)]).map Prod.fst = ["a", "b"]
    ∧ ([("b", SqliteValueRef.NullRef), ("a", SqliteValueRef.NullRef)].map Prod.fst
        = ["b", "a"])
    ∧ (["a", "b"] : List String) ≠ ["b", "a"] := by
  refine ⟨by rfl, by rfl, by decide⟩

/-- C6 amended: every row produced from a result set is a mapping from
column name to value whose column names are pairwise distinct, and whose
key set is exactly the set of column names of the result set; the
iteration order of the mapping is unspecified (a function of the stored
keys, not of the insertion order). -/
theorem C6_row_unique_names (cols : SqliteRawRow) :
    ((row_to_database_row cols).map Prod.fst).Nodup
    ∧ (∀ k : String,
        k ∈ (row_to_database_row cols).map Prod.fst ↔ k ∈ cols.map Prod.fst) := by
  constructor
  · exact rowSorted_keys_nodup _
      (row_build_sorted cols [] (by simp [RowSorted]))
  · intro k
    have hiff := row_build_mem cols [] k
    simp at hiff
    simp only [row_to_database_row]
    constructor
    · intro hk
      rw [List.mem_map] at hk
      obtain ⟨⟨k1, w⟩, hp, hk1⟩ := hk
      cases hk1
      obtain ⟨x, hx⟩ := hiff.mp ⟨w, hp⟩
      rw [List.mem_map]
      exact ⟨(k1, x), hx, rfl⟩
    · intro hk
      rw [List.mem_map] at hk
      obtain ⟨⟨k1, w⟩, hp, hk1⟩ := hk
      cases hk1
      obtain ⟨w2, hw2⟩ := hiff.mpr ⟨w, hp⟩
      rw [List.mem_map]
      exact ⟨(k1, w2), hw2, rfl⟩

/-- C8 counterexample: the claim says the available count after any
successful pool-level begin_transaction equals its value before the
call; but when no connection is idle and the pool is below capacity,
deadpool get creates a fresh connection, and returning it raises the
available count by one. With five existing connections all handed out
elsewhere (available 0, max 16), a successful begin_transaction leaves
available at 1, not 0. -/
theorem C8_counterexample_created_connection :
    ((PooledSqliteDatabase.begin_transaction ⟨⟨5, 0, 16⟩, 30000⟩ (.ok 0)).1 = .ok ())
    ∧ ((PooledSqliteDatabase.begin_transaction ⟨⟨5, 0, 16⟩, 30000⟩ (.ok 0)).2.pool.available = 1)
    ∧ ((⟨⟨5, 0, 16⟩, 30000⟩ : PooledSqliteDatabase).pool.available = 0) := by
  refine ⟨rfl, rfl, rfl⟩

/-- C8 amended: the pool-level begin_transaction borrows a connection,
issues BEGIN TRANSACTION on it, and returns it to the pool before the
call completes. Hence the in-use count is unchanged by every call
(success, engine failure, or acquisition failure) — no connection stays
pinned, so a subsequent execute may be served by a different connection;
the available count equals its prior value exactly when the borrow was
served from an idle connection, and rises by one when the pool had to
create a fresh connection below its cap. -/
theorem C8_begin_transaction_returns_borrow (db : PooledSqliteDatabase)
    (engine : EngineOutcome) :
    ((db.begin_transaction engine).2).pool.in_use = db.pool.in_use
    ∧ (0 < db.pool.available →
        ((db.begin_transaction engine).2).pool.available = db.pool.available)
    ∧ (db.pool.available = 0 → db.pool.size < db.pool.max_size →
        ((db.begin_transaction engine).2).pool.available = 1) := by
  obtain ⟨⟨sz, av, mx⟩, tmo⟩ := db
  simp only [PooledSqliteDatabase.begin_transaction, Pool.get, Pool.put, Pool.in_use]
  by_cases h1 : 0 < av
  · cases engine <;> simp [h1] <;> omega
  · by_cases h2 : sz < mx
    · cases engine <;> simp [h1, h2]
    · cases engine <;> simp [h1, h2]

/-- C8 witness: the amended theorem applied at a pool with one idle
connection out of one, where a successful begin leaves both the in-use
count and the available count unchanged. -/
theorem C8_begin_transaction_returns_borrow_witness :
    (0 : Nat) < 1
    ∧ ((PooledSqliteDatabase.begin_transaction ⟨⟨1, 1, 16⟩, 30000⟩ (.ok 0)).2).pool.available
        = (⟨⟨1, 1, 16⟩, 30000⟩ : PooledSqliteDatabase).pool.available := by
  exact ⟨by decide,
    (C8_begin_transaction_returns_borrow ⟨⟨1, 1, 16⟩, 30000⟩ (.ok 0)).2.1 (by decide)⟩

/-- Guard-and-backend configuration of the direct RAII guard after a
successful finalize: one terminal flag is set, the backend still holds
its connection, and the backend transaction flag is clear. -/
def DirectFinalized (g : TransactionGuard) (db : SqliteDatabase) : Prop :=
  (g.committed = true ∨ g.rolled_back = true)
  ∧ db.connection.isSome = true ∧ db.in_transaction = false

/-- C1: both transaction guards reject every operation after a terminal
state. For the pooled guard, a successful commit or rollback leaves the
guard with its connection taken out (and the matching flag set), and on
any guard whose connection has been taken out — the state every commit
or rollback call leaves behind, successful or not — each of execute,
execute_with_params, query, query_with_params, commit and rollback
returns a TransactionError; in particular commit after rollback, the
reverse, and a repeated finalize all fail. For the direct guard, a
successful commit or rollback leaves a DirectFinalized configuration,
and in every DirectFinalized configuration all six operations return a
TransactionError: the four data operations and the crossed finalizes are
rejected by the guard flags, and a repeated commit (or rollback) passes
the guard check but is rejected by the backend, whose transaction flag
is already clear. -/
theorem C1_finalized_guards_reject :
    (∀ (tx : PooledTransaction) (engine : EngineOutcome),
      (tx.commit engine).1 = .ok () →
        (tx.commit engine).2.connection = none ∧ (tx.commit engine).2.committed = true)
    ∧ (∀ (tx : PooledTransaction) (engine : EngineOutcome),
      (tx.rollback engine).1 = .ok () →
        (tx.rollback engine).2.connection = none
          ∧ (tx.rollback engine).2.rolled_back = true)
    ∧ (∀ tx : PooledTransaction, tx.connection = none →
        (∀ engine, failsWithTransactionError (tx.execute engine))
        ∧ (∀ params engine,
            failsWithTransactionError (tx.execute_with_params params engine))
        ∧ (∀ q, failsWithTransactionError (tx.query q))
        ∧ (∀ params q, failsWithTransactionError (tx.query_with_params params q))
        ∧ (∀ engine, failsWithTransactionError (tx.commit engine).1)
        ∧ (∀ engine, failsWithTransactionError (tx.rollback engine).1))
    ∧ (∀ (g : TransactionGuard) (db : SqliteDatabase) (engine : EngineOutcome),
      (TransactionGuard.commit g db engine).1 = .ok () →
        DirectFinalized (TransactionGuard.commit g db engine).2.1
          (TransactionGuard.commit g db engine).2.2)
    ∧ (∀ (g : TransactionGuard) (db : SqliteDatabase) (engine : EngineOutcome),
      (TransactionGuard.rollback g db engine).1 = .ok () →
        DirectFinalized (TransactionGuard.rollback g db engine).2.1
          (TransactionGuard.rollback g db engine).2.2)
    ∧ (∀ (g : TransactionGuard) (db : SqliteDatabase), DirectFinalized g db →
        (∀ engine,
          failsWithTransactionError (TransactionGuard.execute g db engine).1)
        ∧ (∀ params engine, failsWithTransactionError
            (TransactionGuard.execute_with_params g db params engine).1)
        ∧ (∀ q, failsWithTransactionError (TransactionGuard.query g db q).1)
        ∧ (∀ params q, failsWithTransactionError
            (TransactionGuard.query_with_params g db params q).1)
        ∧ (∀ engine,
          failsWithTransactionError (TransactionGuard.commit g db engine).1)
        ∧ (∀ engine,
          failsWithTransactionError (TransactionGuard.rollback g db engine).1)) := by
  refine ⟨?_, ?_, ?_, ?_, ?_, ?_⟩
  · intro tx engine h
    obtain ⟨conn, cm, rb⟩ := tx
    cases conn <;> cases cm <;> cases rb <;> cases engine <;>
      simp_all [PooledTransaction.commit]
  · intro tx engine h
    obtain ⟨conn, cm, rb⟩ := tx
    cases conn <;> cases cm <;> cases rb <;> cases engine <;>
      simp_all [PooledTransaction.rollback]
  · intro tx h
    obtain ⟨conn, cm, rb⟩ := tx
    cases conn
    · refine ⟨?_, ?_, ?_, ?_, ?_, ?_⟩ <;>
        intro _ <;>
        try intro _
      all_goals
        cases cm <;> cases rb <;>
          simp [PooledTransaction.execute, PooledTransaction.execute_with_params,
            PooledTransaction.query, PooledTransaction.query_with_params,
            PooledTransaction.commit, PooledTransaction.rollback,
            failsWithTransactionError, DatabaseError.isTransactionError]
    · simp at h
  · intro g db engine h
    obtain ⟨cm, rb⟩ := g
    obtain ⟨conn, flag⟩ := db
    cases conn <;> cases cm <;> cases rb <;> cases flag <;> cases engine <;>
      simp_all [TransactionGuard.commit, SqliteDatabase.commit, DirectFinalized]
  · intro g db engine h
    obtain ⟨cm, rb⟩ := g
    obtain ⟨conn, flag⟩ := db
    cases conn <;> cases cm <;> cases rb <;> cases flag <;> cases engine <;>
      simp_all [TransactionGuard.rollback, SqliteDatabase.rollback, DirectFinalized]
  · intro g db hfin
    obtain ⟨cm, rb⟩ := g
    obtain ⟨conn, flag⟩ := db
    obtain ⟨hdisj, hconn, hflag⟩ := hfin
    simp only at hdisj hconn hflag
    subst hflag
    obtain ⟨c, hc⟩ := Option.isSome_iff_exists.mp hconn
    subst hc
    refine ⟨?_, ?_, ?_, ?_, ?_, ?_⟩ <;>
      intro _ <;>
      try intro _
    all_goals
      rcases hdisj with hcm | hrb
    all_goals
      first
        | (subst hcm; cases rb <;>
            simp [TransactionGuard.execute, TransactionGuard.execute_with_params,
              TransactionGuard.query, TransactionGuard.query_with_params,
              TransactionGuard.commit, TransactionGuard.rollback,
              SqliteDatabase.execute, SqliteDatabase.execute_with_params,
              SqliteDatabase.query, SqliteDatabase.query_with_params,
              SqliteDatabase.commit, SqliteDatabase.rollback,
              failsWithTransactionError, DatabaseError.isTransactionError])
        | (subst hrb; cases cm <;>
            simp [TransactionGuard.execute, TransactionGuard.execute_with_params,
              TransactionGuard.query, TransactionGuard.query_with_params,
              TransactionGuard.commit, TransactionGuard.rollback,
              SqliteDatabase.execute, SqliteDatabase.execute_with_params,
              SqliteDatabase.query, SqliteDatabase.query_with_params,
              SqliteDatabase.commit, SqliteDatabase.rollback,
              failsWithTransactionError, DatabaseError.isTransactionError])

/-- C1 witness: the theorem applied at concrete finalized guards — a
pooled guard that has committed (connection taken out) rejects execute,
and a direct guard that has committed over a connected backend with a
clear flag rejects a second commit. -/
theorem C1_finalized_guards_reject_witness :
    failsWithTransactionError
      (PooledTransaction.execute ⟨none, true, false⟩ (.ok 1))
    ∧ failsWithTransactionError
      ((TransactionGuard.commit ⟨true, false⟩ ⟨some 0, false⟩ (.ok 0)).1) := by
  have h := C1_finalized_guards_reject
  constructor
  · exact (h.2.2.1 ⟨none, true, false⟩ rfl).1 (.ok 1)
  · exact (h.2.2.2.2.2 ⟨true, false⟩ ⟨some 0, false⟩
      ⟨Or.inl rfl, rfl, rfl⟩).2.2.2.2.1 (.ok 0)

end RustDB
